import Mathlib

/-!
Verification of the state-snapshot and upgrade engine of the `canister-tools`
library (`src/stable_memory_tools.rs`), as a shallow embedding.

Bytes are modelled as `List Nat` (each entry a byte value), stable-memory
regions as a page count together with a total byte map, and the process-wide
canister state as the snapshot registry, the global variables, and the map
from memory ids to regions.  Traps are modelled with `Except`: a returned
`Except.error` is a trap, and the host rolls back all state changed by the
message, so an errored call leaves the pre-call state observable (the
`stateOf` projections below realize this rollback).
-/

namespace CanTools

abbrev Bytes := List Nat

/-- `WASM_PAGE_SIZE_IN_BYTES`. -/
def PAGE : Nat := 65536

/-- `(data.len() as u64).to_be_bytes()`: the eight big-endian bytes of a u64. -/
def u64_to_be_bytes (n : Nat) : Bytes :=
  [n / 2 ^ 56 % 256, n / 2 ^ 48 % 256, n / 2 ^ 40 % 256, n / 2 ^ 32 % 256,
   n / 2 ^ 24 % 256, n / 2 ^ 16 % 256, n / 2 ^ 8 % 256, n % 256]

/-- `u64::from_be_bytes`: decode eight big-endian bytes into a u64. -/
def u64_from_be_bytes (bs : Bytes) : Nat :=
  bs.foldl (fun acc b => acc * 256 + b) 0

/--
Modelled from the spec: the persistent-memory adapter of §4.1 (the region
handle vended by the external memory manager, which is not part of this
repository).  A region is a current size in pages and a total byte map;
`limitPages` models the host resource bound that makes `grow` able to fail.
-/
structure Region where
  sizePages : Nat
  mem : Nat → Nat
  limitPages : Nat

/-- Modelled from the spec: `grow(extra_pages) → i64` returns the new size in
pages, or −1 on failure (here: when the host page limit would be exceeded). -/
def Region.grow (r : Region) (extra : Nat) : Int × Region :=
  if r.sizePages + extra ≤ r.limitPages then
    (((r.sizePages + extra : Nat) : Int), { r with sizePages := r.sizePages + extra })
  else
    (-1, r)

/-- Modelled from the spec: `write(offset, src)` writes `src.len()` bytes at
`offset`. -/
def Region.write (r : Region) (off : Nat) (data : Bytes) : Region :=
  { r with mem := fun a => if off ≤ a ∧ a < off + data.length then data.getD (a - off) 0 else r.mem a }

/-- Modelled from the spec: `read(offset, dst)` reads `dst.len()` bytes starting
at `offset`. -/
def Region.read (r : Region) (off len : Nat) : Bytes :=
  (List.range len).map (fun i => r.mem (off + i))

-- ---- the length-framed blob codec (from src/stable_memory_tools.rs) ----

/-- The page count passed to `grow` at line 171 of the source:
`((want_memory_size_bytes - memory_size_bytes) / WASM_PAGE_SIZE_IN_BYTES) + 1`. -/
def grow_amount (memory_size_bytes want_memory_size_bytes : Nat) : Nat :=
  (want_memory_size_bytes - memory_size_bytes) / PAGE + 1

/--
`locate_minimum_memory(memory, want_memory_size_bytes)`.  The first component
is the source's `Result<(),()>` together with the possibly grown region; the
second component records the page count passed to `grow` (`none` when the
region was already large enough and `grow` was not called).
-/
def locate_minimum_memory (memory : Region) (want_memory_size_bytes : Nat) :
    Except Unit Region × Option Nat :=
  let memory_size_bytes := memory.sizePages * PAGE
  if memory_size_bytes < want_memory_size_bytes then
    let pages := grow_amount memory_size_bytes want_memory_size_bytes
    let res := memory.grow pages
    if res.1 = -1 then
      (.error (), some pages)
    else
      (.ok res.2, some pages)
  else
    (.ok memory, none)

/-- `write_data_with_length_onto_the_stable_memory(memory, offset, data)`:
frame the payload as 8 big-endian length bytes followed by the payload,
after ensuring capacity.  The `Option Nat` again records the `grow` call. -/
def write_data_with_length_onto_the_stable_memory (serialization_memory : Region)
    (stable_memory_offset : Nat) (data : Bytes) : Except Unit Region × Option Nat :=
  match locate_minimum_memory serialization_memory
      (stable_memory_offset + 8 + data.length) with
  | (.error e, gp) => (.error e, gp)
  | (.ok m1, gp) =>
    (.ok ((m1.write stable_memory_offset (u64_to_be_bytes data.length)).write
        (stable_memory_offset + 8) data), gp)

/-- `read_stable_memory_bytes_with_length(memory, offset)`: read the 8-byte
big-endian length, then that many payload bytes. -/
def read_stable_memory_bytes_with_length (serialization_memory : Region)
    (stable_memory_offset : Nat) : Bytes :=
  let data_len_u64 := u64_from_be_bytes (serialization_memory.read stable_memory_offset 8)
  serialization_memory.read (stable_memory_offset + 8) data_len_u64

-- ---- the snapshot registry and the canister state ----

/--
`SnapshotData`: the per-`MemoryId` registry entry.  `snapshot` is the staged
byte buffer.  The Rust entry stores two closures capturing a global variable
of some registered type `Data`; here the globals live in a slot map
`Nat → Val`, and the entry records the captured `slot` together with the
codec pair (`serialize_data_fn` reads the slot through `forward`,
`load_data_fn` decodes through `backward` and assigns into the slot).
-/
structure SnapshotData (Val : Type) where
  snapshot : Bytes
  slot : Nat
  forward : Val → Except String Bytes
  backward : Bytes → Except String Val

/-- `StateSnapshots`: the `BTreeMap<MemoryId, SnapshotData>`, kept as an
association list sorted by `MemoryId` (a `u8`, modelled as `Nat`). -/
abbrev StateSnapshots (Val : Type) := List (Nat × SnapshotData Val)

def lookupEntry {Val : Type} : StateSnapshots Val → Nat → Option (SnapshotData Val)
  | [], _ => none
  | (k, v) :: rest, id => if id = k then some v else lookupEntry rest id

/-- `contains_key`. -/
def containsId {Val : Type} (rs : StateSnapshots Val) (id : Nat) : Bool :=
  (lookupEntry rs id).isSome

/-- `BTreeMap::insert` on a key not yet present, keeping the keys sorted. -/
def insertEntry {Val : Type} : StateSnapshots Val → Nat → SnapshotData Val → StateSnapshots Val
  | [], id, e => [(id, e)]
  | (k, v) :: rest, id, e =>
    if id < k then (id, e) :: (k, v) :: rest
    else if id = k then (id, e) :: rest
    else (k, v) :: insertEntry rest id e

/-- Mutation through `get_mut`: replace the entry stored at `id`. -/
def updateEntry {Val : Type} : StateSnapshots Val → Nat → SnapshotData Val → StateSnapshots Val
  | [], _, _ => []
  | (k, v) :: rest, id, e => if id = k then (k, e) :: rest else (k, v) :: updateEntry rest id e

/--
The process-wide canister state: the snapshot registry (`STATE_SNAPSHOTS`),
the global variables (one `Val` per slot), and the stable-memory regions
vended by the memory manager (one region per `MemoryId`; a never-grown
region has size 0 pages).
-/
structure CanState (Val : Type) where
  registry : StateSnapshots Val
  vars : Nat → Val
  regions : Nat → Region

def setVar {Val : Type} (st : CanState Val) (slot : Nat) (v : Val) : CanState Val :=
  { st with vars := fun k => if k = slot then v else st.vars k }

def setRegion {Val : Type} (st : CanState Val) (id : Nat) (r : Region) : CanState Val :=
  { st with regions := fun k => if k = id then r else st.regions k }

/-- `STABLE_MEMORY_HEADER_SIZE_BYTES`. -/
def STABLE_MEMORY_HEADER_SIZE_BYTES : Nat := 1024

-- ---- init / pre_upgrade / post_upgrade ----

/-- The trap message of a duplicate registration. -/
def already_registered_msg (memory_id : Nat) : String :=
  "memory-id: " ++ toString memory_id ++ " is already registered with the canister-tools library."

/--
`init(s, memory_id)`: register the global at `slot` (with the codec of its
type `Data`) under `memory_id`; traps when `memory_id` is already present.
-/
def init {Val : Type} (st : CanState Val) (slot : Nat)
    (fwd : Val → Except String Bytes) (bwd : Bytes → Except String Val)
    (memory_id : Nat) : Except String (CanState Val) :=
  if containsId st.registry memory_id then
    .error (already_registered_msg memory_id)
  else
    .ok { st with registry := (insertEntry st.registry memory_id
        { snapshot := [], slot := slot, forward := fwd, backward := bwd }) }

/--
The loop body sequence of `pre_upgrade`: for each `(memory_id, d)` in order,
set `d.snapshot` to the serializer output (trap on error, the `.unwrap()`)
and write it length-framed at offset 1024 of the region of `memory_id` (trap
on error).  `vars` is read-only during the traversal.
-/
def pre_upgrade_go {Val : Type} (vars : Nat → Val) :
    StateSnapshots Val → (Nat → Region) → Except String (StateSnapshots Val × (Nat → Region))
  | [], regions => .ok ([], regions)
  | (memory_id, d) :: rest, regions => do
    let snap ← d.forward (vars d.slot)
    match (write_data_with_length_onto_the_stable_memory (regions memory_id)
        STABLE_MEMORY_HEADER_SIZE_BYTES snap).1 with
    | .error _ => .error "stable memory grow failed"
    | .ok r2 => do
      let (rest2, regions2) ← pre_upgrade_go vars rest
          (fun k => if k = memory_id then r2 else regions k)
      .ok ((memory_id, { d with snapshot := snap }) :: rest2, regions2)

/-- `pre_upgrade()`: serialize every registered global into its region. -/
def pre_upgrade {Val : Type} (st : CanState Val) : Except String (CanState Val) := do
  let (reg2, regions2) ← pre_upgrade_go st.vars st.registry st.regions
  .ok { st with registry := reg2, regions := regions2 }

/--
`post_upgrade(s, memory_id, opt_old_as_new_convert)`: read the framed bytes
at offset 1024 of the region of `memory_id`, decode them (through the old
type's `backward` composed with the convert function when one is given,
directly through `Data`'s `backward` otherwise, trapping on a codec error),
assign the value into the global at `slot`, then `init(s, memory_id)`.
-/
def post_upgrade {Val OldVal : Type} (st : CanState Val) (slot : Nat)
    (fwd : Val → Except String Bytes) (bwd : Bytes → Except String Val)
    (memory_id : Nat)
    (opt_old_as_new_convert : Option ((Bytes → Except String OldVal) × (OldVal → Val))) :
    Except String (CanState Val) := do
  let stable_data := read_stable_memory_bytes_with_length (st.regions memory_id)
      STABLE_MEMORY_HEADER_SIZE_BYTES
  let value ← match opt_old_as_new_convert with
    | some (bwdOld, old_as_new_convert) => (bwdOld stable_data).map old_as_new_convert
    | none => bwd stable_data
  init (setVar st slot value) slot fwd bwd memory_id

/--
Modelled from the spec: a code upgrade resets the wasm heap between
`pre_upgrade` and `post_upgrade` — the registry singleton restarts empty and
the globals restart at their default values — while the stable-memory
regions persist.
-/
def heap_reset {Val : Type} (st : CanState Val) (defaults : Nat → Val) : CanState Val :=
  { registry := [], vars := defaults, regions := st.regions }

-- ---- the controller endpoint surface ----

/-- The trap message of `caller_is_controller_gaurd`. -/
def controller_guard_msg : String := "Caller must be a controller for this method."

/-- `caller_is_controller_gaurd(&caller())`: the caller is abstracted to the
one bit the guard inspects, `is_controller(caller)`. -/
def caller_is_controller_gaurd (is_controller : Bool) : Except String Unit :=
  if is_controller = false then .error controller_guard_msg else .ok ()

/-- The trap message of the snapshot endpoints on an unregistered id. -/
def no_data_msg : String := "no data associated with this memory_id"

/-- `controller_create_state_snapshot(memory_id) → u64`: replace the staged
snapshot with the serializer output and reply with its length. -/
def controller_create_state_snapshot {Val : Type} (is_controller : Bool) (st : CanState Val)
    (memory_id : Nat) : Except String (CanState Val × Nat) := do
  caller_is_controller_gaurd is_controller
  match lookupEntry st.registry memory_id with
  | none => .error no_data_msg
  | some d => do
    let snap ← d.forward (st.vars d.slot)
    .ok ({ st with registry := updateEntry st.registry memory_id { d with snapshot := snap } },
         snap.length)

/-- `controller_download_state_snapshot(memory_id, offset, length) → blob`
(query): reply with `snapshot[offset..offset+length]`; an out-of-range slice
traps. -/
def controller_download_state_snapshot {Val : Type} (is_controller : Bool) (st : CanState Val)
    (memory_id offset length : Nat) : Except String (CanState Val × Bytes) := do
  caller_is_controller_gaurd is_controller
  match lookupEntry st.registry memory_id with
  | none => .error no_data_msg
  | some d =>
    if offset + length ≤ d.snapshot.length then
      .ok (st, (d.snapshot.drop offset).take length)
    else
      .error "slice index out of range"

/-- `controller_clear_state_snapshot(memory_id)`: set the staged snapshot to
the empty buffer. -/
def controller_clear_state_snapshot {Val : Type} (is_controller : Bool) (st : CanState Val)
    (memory_id : Nat) : Except String (CanState Val × Unit) := do
  caller_is_controller_gaurd is_controller
  match lookupEntry st.registry memory_id with
  | none => .error no_data_msg
  | some d =>
    .ok ({ st with registry := updateEntry st.registry memory_id { d with snapshot := [] } }, ())

/-- `controller_append_state_snapshot(memory_id, bytes)`: append the bytes to
the staged snapshot. -/
def controller_append_state_snapshot {Val : Type} (is_controller : Bool) (st : CanState Val)
    (memory_id : Nat) (bytes : Bytes) : Except String (CanState Val × Unit) := do
  caller_is_controller_gaurd is_controller
  match lookupEntry st.registry memory_id with
  | none => .error no_data_msg
  | some d =>
    .ok ({ st with registry :=
            updateEntry st.registry memory_id { d with snapshot := d.snapshot ++ bytes } }, ())

/-- `controller_load_state_snapshot(memory_id)`: decode the staged snapshot
through the entry's `load_data_fn` and assign it into the captured global;
traps on a codec error. -/
def controller_load_state_snapshot {Val : Type} (is_controller : Bool) (st : CanState Val)
    (memory_id : Nat) : Except String (CanState Val × Unit) := do
  caller_is_controller_gaurd is_controller
  match lookupEntry st.registry memory_id with
  | none => .error no_data_msg
  | some d => do
    let v ← d.backward d.snapshot
    .ok (setVar st d.slot v, ())

/-- `controller_stable_memory_read(memory_id, offset, length) → blob`
(query). -/
def controller_stable_memory_read {Val : Type} (is_controller : Bool) (st : CanState Val)
    (memory_id offset length : Nat) : Except String (CanState Val × Bytes) := do
  caller_is_controller_gaurd is_controller
  .ok (st, (st.regions memory_id).read offset length)

/-- `controller_stable_memory_write(memory_id, offset, bytes)`. -/
def controller_stable_memory_write {Val : Type} (is_controller : Bool) (st : CanState Val)
    (memory_id offset : Nat) (b : Bytes) : Except String (CanState Val × Unit) := do
  caller_is_controller_gaurd is_controller
  .ok (setRegion st memory_id ((st.regions memory_id).write offset b), ())

/-- `controller_stable_memory_size(memory_id) → u64` (query). -/
def controller_stable_memory_size {Val : Type} (is_controller : Bool) (st : CanState Val)
    (memory_id : Nat) : Except String (CanState Val × Nat) := do
  caller_is_controller_gaurd is_controller
  .ok (st, (st.regions memory_id).sizePages)

/-- `controller_stable_memory_grow(memory_id, pages) → i64`. -/
def controller_stable_memory_grow {Val : Type} (is_controller : Bool) (st : CanState Val)
    (memory_id pages : Nat) : Except String (CanState Val × Int) := do
  caller_is_controller_gaurd is_controller
  let res := (st.regions memory_id).grow pages
  .ok (setRegion st memory_id res.2, res.1)

-- ---- observation helpers (host rollback on trap) ----

/-- The canister state observable after a message: the handler's result state
on success, the pre-message state on a trap (the host rolls back). -/
def stateOf {Val A : Type} (r : Except String (CanState Val × A)) (pre : CanState Val) :
    CanState Val :=
  match r with
  | .ok (st2, _) => st2
  | .error _ => pre

/-- As `stateOf`, for results that carry no reply. -/
def stateOfE {Val : Type} (r : Except String (CanState Val)) (pre : CanState Val) : CanState Val :=
  match r with
  | .ok st2 => st2
  | .error _ => pre

-- ---- composite runs used by the round-trip claims ----

/-- The message sequence `create_state_snapshot(id); load_state_snapshot(id)`
issued by a controller. -/
def create_then_load {Val : Type} (st : CanState Val) (memory_id : Nat) :
    Except String (CanState Val) := do
  let r1 ← controller_create_state_snapshot true st memory_id
  let r2 ← controller_load_state_snapshot true r1.1 memory_id
  .ok r2.1

/-- The upgrade sequence: `pre_upgrade()`, then the host's heap reset, then
`post_upgrade(s, memory_id, None)` registering `slot` with the codec
`(fwd, bwd)`. -/
def upgrade_roundtrip {Val : Type} (st : CanState Val) (defaults : Nat → Val) (slot : Nat)
    (fwd : Val → Except String Bytes) (bwd : Bytes → Except String Val) (memory_id : Nat) :
    Except String (CanState Val) := do
  let st1 ← pre_upgrade st
  post_upgrade (heap_reset st1 defaults) slot fwd bwd memory_id
    (none : Option ((Bytes → Except String Val) × (Val → Val)))

/-- The chunked download sequence: one `controller_download_state_snapshot`
call per chunk length in `cs`, at consecutive offsets, concatenating the
replies. -/
def download_chunks {Val : Type} : CanState Val → Nat → Nat → List Nat → Except String Bytes
  | _, _, _, [] => .ok []
  | st, memory_id, off, c :: cs => do
    let r ← controller_download_state_snapshot true st memory_id off c
    let rest ← download_chunks r.1 memory_id (off + c) cs
    .ok (r.2 ++ rest)

-- ---- concrete fixtures used by the witnesses ----

/-- A concrete codec on `Nat` values with `backward (forward v) = v`:
`forward` writes `v` bytes of value 1, `backward` counts the bytes. -/
def fwdNat (v : Nat) : Except String Bytes := .ok (List.replicate v 1)

/-- The decoding half of the concrete codec: the byte count. -/
def bwdNat (b : Bytes) : Except String Nat := .ok b.length

def entryA : SnapshotData Nat :=
  { snapshot := [5, 6], slot := 0, forward := fwdNat, backward := bwdNat }

def entryB : SnapshotData Nat :=
  { snapshot := [9], slot := 1, forward := fwdNat, backward := bwdNat }

/-- A fresh region: never grown, all bytes zero, room to grow 100 pages. -/
def regionZ : Region := { sizePages := 0, mem := fun _ => 0, limitPages := 100 }

/-- A concrete canister state with two registered memory ids. -/
def stA : CanState Nat :=
  { registry := [(0, entryA), (1, entryB)], vars := fun _ => 3, regions := fun _ => regionZ }

-- ======================================================================
-- theorems
-- ======================================================================

theorem u64_to_be_bytes_length (n : Nat) : (u64_to_be_bytes n).length = 8 := rfl

theorem u64_roundtrip (n : Nat) (h : n < 2 ^ 64) :
    u64_from_be_bytes (u64_to_be_bytes n) = n := by
  simp only [u64_to_be_bytes, u64_from_be_bytes, List.foldl]
  omega

theorem Region.read_length (r : Region) (off len : Nat) : (r.read off len).length = len := by
  simp [Region.read]

/-- Growing never changes the byte map, only the page count. -/
theorem Region.grow_mem (r : Region) (extra : Nat) : (r.grow extra).2.mem = r.mem := by
  unfold Region.grow
  split <;> rfl

/-- Reading back exactly the bytes just written. -/
theorem Region.read_write_self (r : Region) (off : Nat) (data : Bytes) :
    (r.write off data).read off data.length = data := by
  apply List.ext_getElem
  · simp [Region.read]
  · intro i h1 h2
    simp only [Region.read, Region.write, List.getElem_map, List.getElem_range]
    rw [if_pos (by omega : off ≤ off + i ∧ off + i < off + data.length)]
    have hi : off + i - off = i := by omega
    rw [hi]
    exact List.getD_eq_getElem data 0 h2

/-- A write at or above `off + len` does not change a read of `[off, off+len)`. -/
theorem Region.read_write_of_le (r : Region) (off len off2 : Nat) (data : Bytes)
    (h : off + len ≤ off2) :
    (r.write off2 data).read off len = r.read off len := by
  apply List.ext_getElem
  · simp [Region.read]
  · intro i h1 h2
    simp only [Region.read, List.length_map, List.length_range] at h1
    simp only [Region.read, Region.write, List.getElem_map, List.getElem_range]
    rw [if_neg (by omega)]

/-- Framing round-trip: after a successful framed write of `data` at `off`,
reading the frame at `off` returns exactly `data`. -/
theorem write_then_read (r : Region) (off : Nat) (data : Bytes) (r2 : Region)
    (hlen : data.length < 2 ^ 64)
    (h : (write_data_with_length_onto_the_stable_memory r off data).1 = .ok r2) :
    read_stable_memory_bytes_with_length r2 off = data := by
  unfold write_data_with_length_onto_the_stable_memory at h
  cases hloc : locate_minimum_memory r (off + 8 + data.length) with
  | mk res gp =>
    rw [hloc] at h
    cases res with
    | error e => simp at h
    | ok m1 =>
      simp only [Except.ok.injEq] at h
      subst h
      unfold read_stable_memory_bytes_with_length
      have hlenbytes : (u64_to_be_bytes data.length).length = 8 := rfl
      have h8 : ((m1.write off (u64_to_be_bytes data.length)).write (off + 8) data).read off 8
          = u64_to_be_bytes data.length := by
        rw [Region.read_write_of_le _ _ _ _ _ (by omega)]
        conv_rhs => rw [← Region.read_write_self m1 off (u64_to_be_bytes data.length)]
        rw [hlenbytes]
      rw [h8, u64_roundtrip data.length hlen]
      exact Region.read_write_self _ _ _

-- ---- registry lemmas ----

theorem lookupEntry_updateEntry_self {Val : Type} (rs : StateSnapshots Val) (id : Nat)
    (e d : SnapshotData Val) (h : lookupEntry rs id = some d) :
    lookupEntry (updateEntry rs id e) id = some e := by
  induction rs with
  | nil => simp [lookupEntry] at h
  | cons p rest ih =>
    obtain ⟨k, v⟩ := p
    by_cases hk : id = k
    · simp [lookupEntry, updateEntry, hk]
    · simp only [lookupEntry, updateEntry, if_neg hk] at h ⊢
      exact ih h

theorem lookupEntry_updateEntry_ne {Val : Type} (rs : StateSnapshots Val) (id j : Nat)
    (e : SnapshotData Val) (h : j ≠ id) :
    lookupEntry (updateEntry rs id e) j = lookupEntry rs j := by
  induction rs with
  | nil => simp [updateEntry]
  | cons p rest ih =>
    obtain ⟨k, v⟩ := p
    by_cases hk : id = k
    · subst hk
      simp [lookupEntry, updateEntry, if_neg h]
    · simp only [updateEntry, if_neg hk, lookupEntry]
      by_cases hj : j = k
      · simp [hj]
      · simp only [if_neg hj]
        exact ih

theorem lookupEntry_insertEntry_self {Val : Type} (rs : StateSnapshots Val) (id : Nat)
    (e : SnapshotData Val) : lookupEntry (insertEntry rs id e) id = some e := by
  induction rs with
  | nil => simp [insertEntry, lookupEntry]
  | cons p rest ih =>
    obtain ⟨k, v⟩ := p
    by_cases hlt : id < k
    · simp [insertEntry, if_pos hlt, lookupEntry]
    · by_cases heq : id = k
      · simp [insertEntry, if_neg hlt, if_pos heq, lookupEntry]
      · simp only [insertEntry, if_neg hlt, if_neg heq, lookupEntry]
        exact ih

-- ---- pre_upgrade traversal lemmas ----

/-- The traversal only touches the regions of the ids it visits. -/
theorem pre_upgrade_go_preserves {Val : Type} (vars : Nat → Val) :
    ∀ (l : StateSnapshots Val) (regions : Nat → Region) (l2 : StateSnapshots Val)
      (regions2 : Nat → Region),
      pre_upgrade_go vars l regions = .ok (l2, regions2) →
      ∀ j, j ∉ l.map Prod.fst → regions2 j = regions j := by
  intro l
  induction l with
  | nil =>
    intro regions l2 regions2 h j _
    simp only [pre_upgrade_go, Except.ok.injEq, Prod.mk.injEq] at h
    rw [← h.2]
  | cons p rest ih =>
    intro regions l2 regions2 h j hj
    obtain ⟨memory_id, d⟩ := p
    simp only [pre_upgrade_go, Bind.bind, Except.bind] at h
    cases hf : d.forward (vars d.slot) with
    | error e => rw [hf] at h; simp at h
    | ok snap =>
      rw [hf] at h
      simp only [] at h
      cases hw : (write_data_with_length_onto_the_stable_memory (regions memory_id)
          STABLE_MEMORY_HEADER_SIZE_BYTES snap).1 with
      | error e => rw [hw] at h; simp at h
      | ok r2 =>
        rw [hw] at h
        simp only [] at h
        cases hrec : pre_upgrade_go vars rest (fun k => if k = memory_id then r2 else regions k) with
        | error e => rw [hrec] at h; simp at h
        | ok p2 =>
          rw [hrec] at h
          simp only [Except.ok.injEq, Prod.mk.injEq] at h
          simp only [List.map_cons, List.mem_cons] at hj
          push_neg at hj
          have hj2 := ih _ _ _ hrec j hj.2
          rw [← h.2, hj2]
          simp [if_neg hj.1]

/-- Every visited entry got its serializer output written framed into its own
region, and that region is what the traversal is left with at that id. -/
theorem pre_upgrade_go_region {Val : Type} (vars : Nat → Val) :
    ∀ (l : StateSnapshots Val) (regions : Nat → Region) (l2 : StateSnapshots Val)
      (regions2 : Nat → Region),
      (l.map Prod.fst).Nodup →
      pre_upgrade_go vars l regions = .ok (l2, regions2) →
      ∀ memory_id d, (memory_id, d) ∈ l →
        ∃ bs r2, d.forward (vars d.slot) = .ok bs ∧
          (write_data_with_length_onto_the_stable_memory (regions memory_id)
            STABLE_MEMORY_HEADER_SIZE_BYTES bs).1 = .ok r2 ∧
          regions2 memory_id = r2 := by
  intro l
  induction l with
  | nil =>
    intro regions l2 regions2 _ _ memory_id d hmem
    simp at hmem
  | cons p rest ih =>
    intro regions l2 regions2 hnd h memory_id d hmem
    obtain ⟨k, dk⟩ := p
    simp only [pre_upgrade_go, Bind.bind, Except.bind] at h
    cases hf : dk.forward (vars dk.slot) with
    | error e => rw [hf] at h; simp at h
    | ok snap =>
      rw [hf] at h
      simp only [] at h
      cases hw : (write_data_with_length_onto_the_stable_memory (regions k)
          STABLE_MEMORY_HEADER_SIZE_BYTES snap).1 with
      | error e => rw [hw] at h; simp at h
      | ok r2 =>
        rw [hw] at h
        simp only [] at h
        cases hrec : pre_upgrade_go vars rest (fun j => if j = k then r2 else regions j) with
        | error e => rw [hrec] at h; simp at h
        | ok p2 =>
          rw [hrec] at h
          simp only [Except.ok.injEq, Prod.mk.injEq] at h
          simp only [List.map_cons, List.nodup_cons] at hnd
          rcases List.mem_cons.mp hmem with hhead | htail
          · cases hhead
            refine ⟨snap, r2, hf, hw, ?_⟩
            have hnotin : memory_id ∉ rest.map Prod.fst := hnd.1
            have := pre_upgrade_go_preserves vars rest _ _ _ hrec memory_id hnotin
            rw [← h.2, this]
            simp
          · have hne : memory_id ≠ k := by
              intro hcontra
              subst hcontra
              exact hnd.1 (List.mem_map.mpr ⟨(memory_id, d), htail, rfl⟩)
            obtain ⟨bs, r3, h1, h2, h3⟩ := ih _ _ _ hnd.2 hrec memory_id d htail
            refine ⟨bs, r3, h1, ?_, ?_⟩
            · rw [if_neg hne] at h2
              exact h2
            · rw [h.2] at h3
              exact h3

-- ---- claim theorems ----

/-- C3: registration is one-shot per `MemoryId`: a second registration of an
id already present in the registry traps with the duplicate-registration
message, and (the trap rolling the message back) the registry mapping
observable after the failed call is unchanged. -/
theorem register_duplicate_traps {Val : Type} (st : CanState Val) (slot : Nat)
    (fwd : Val → Except String Bytes) (bwd : Bytes → Except String Val) (memory_id : Nat)
    (h : containsId st.registry memory_id = true) :
    init st slot fwd bwd memory_id = .error (already_registered_msg memory_id) ∧
    (stateOfE (init st slot fwd bwd memory_id) st).registry = st.registry := by
  constructor
  · simp [init, h]
  · simp [stateOfE, init, h]

theorem register_duplicate_traps_witness :
    containsId stA.registry 0 = true ∧
    (init stA 5 fwdNat bwdNat 0 = .error (already_registered_msg 0) ∧
     (stateOfE (init stA 5 fwdNat bwdNat 0) stA).registry = stA.registry) :=
  ⟨rfl, register_duplicate_traps stA 5 fwdNat bwdNat 0 rfl⟩

/-- C6: each of the nine exported controller endpoints, invoked by a caller
that is not a platform controller, traps with the fixed guard message, and
the observable state after the rolled-back message is the pre-call state. -/
theorem non_controller_calls_trap {Val : Type} (st : CanState Val)
    (memory_id offset length pages : Nat) (bytes : Bytes) :
    (controller_create_state_snapshot false st memory_id = .error controller_guard_msg ∧
     controller_download_state_snapshot false st memory_id offset length
       = .error controller_guard_msg ∧
     controller_clear_state_snapshot false st memory_id = .error controller_guard_msg ∧
     controller_append_state_snapshot false st memory_id bytes = .error controller_guard_msg ∧
     controller_load_state_snapshot false st memory_id = .error controller_guard_msg ∧
     controller_stable_memory_read false st memory_id offset length
       = .error controller_guard_msg ∧
     controller_stable_memory_write false st memory_id offset bytes
       = .error controller_guard_msg ∧
     controller_stable_memory_size false st memory_id = .error controller_guard_msg ∧
     controller_stable_memory_grow false st memory_id pages = .error controller_guard_msg) ∧
    (stateOf (controller_create_state_snapshot false st memory_id) st = st ∧
     stateOf (controller_download_state_snapshot false st memory_id offset length) st = st ∧
     stateOf (controller_clear_state_snapshot false st memory_id) st = st ∧
     stateOf (controller_append_state_snapshot false st memory_id bytes) st = st ∧
     stateOf (controller_load_state_snapshot false st memory_id) st = st ∧
     stateOf (controller_stable_memory_read false st memory_id offset length) st = st ∧
     stateOf (controller_stable_memory_write false st memory_id offset bytes) st = st ∧
     stateOf (controller_stable_memory_size false st memory_id) st = st ∧
     stateOf (controller_stable_memory_grow false st memory_id pages) st = st) :=
  ⟨⟨rfl, rfl, rfl, rfl, rfl, rfl, rfl, rfl, rfl⟩,
   ⟨rfl, rfl, rfl, rfl, rfl, rfl, rfl, rfl, rfl⟩⟩

/-- C10: `post_upgrade` with no convert function is observably equivalent to
`post_upgrade` with the identity convert function instantiated at
`OldData = Data`: both decode the stored framed payload with `Data`'s
`backward`, assign the same value into the in-memory slot, and re-register
the id. -/
theorem post_upgrade_none_eq_some_identity {Val : Type} (st : CanState Val) (slot : Nat)
    (fwd : Val → Except String Bytes) (bwd : Bytes → Except String Val) (memory_id : Nat) :
    post_upgrade st slot fwd bwd memory_id
        (none : Option ((Bytes → Except String Val) × (Val → Val))) =
    post_upgrade st slot fwd bwd memory_id (some (bwd, fun v => v)) := by
  unfold post_upgrade
  cases h : bwd (read_stable_memory_bytes_with_length (st.regions memory_id)
      STABLE_MEMORY_HEADER_SIZE_BYTES) <;>
    simp [h, Except.map]

/-- C5: `controller_stable_memory_grow` replies with the new size in pages of
the region after growing, or with −1 on failure (in which case the region of
that id is unchanged). -/
theorem stable_memory_grow_reply {Val : Type} (st : CanState Val) (memory_id pages : Nat) :
    ∃ st2 reply,
      controller_stable_memory_grow true st memory_id pages = .ok (st2, reply) ∧
      (reply = ((st2.regions memory_id).sizePages : Int) ∨
       (reply = -1 ∧ st2.regions memory_id = st.regions memory_id)) := by
  refine ⟨_, _, rfl, ?_⟩
  by_cases hc : (st.regions memory_id).sizePages + pages ≤ (st.regions memory_id).limitPages
  · left
    simp [Region.grow, setRegion, hc]
  · right
    constructor
    · simp [Region.grow, hc]
    · simp [Region.grow, setRegion, hc]

/-- C8: for a `MemoryId` not present in the registry,
`controller_create_state_snapshot` traps, whereas
`controller_stable_memory_size` succeeds and replies 0 pages when the memory
manager vends a fresh, never-grown region for the id. -/
theorem unknown_id_create_traps_size_zero {Val : Type} (st : CanState Val) (memory_id : Nat)
    (hreg : lookupEntry st.registry memory_id = none)
    (hfresh : (st.regions memory_id).sizePages = 0) :
    controller_create_state_snapshot true st memory_id = .error no_data_msg ∧
    controller_stable_memory_size true st memory_id = .ok (st, 0) := by
  constructor
  · simp [controller_create_state_snapshot, caller_is_controller_gaurd, hreg,
      Bind.bind, Except.bind]
  · simp [controller_stable_memory_size, caller_is_controller_gaurd, hfresh,
      Bind.bind, Except.bind]

theorem unknown_id_create_traps_size_zero_witness :
    lookupEntry stA.registry 7 = none ∧ (stA.regions 7).sizePages = 0 ∧
    (controller_create_state_snapshot true stA 7 = .error no_data_msg ∧
     controller_stable_memory_size true stA 7 = .ok (stA, 0)) :=
  ⟨rfl, rfl, unknown_id_create_traps_size_zero stA 7 rfl rfl⟩

/-- C1: for a registered id whose codec round-trips on the currently stored
value, `create_state_snapshot(id); load_state_snapshot(id)` succeeds and
leaves the registered in-memory value equal to its value just before the
create call. -/
theorem snapshot_roundtrip {Val : Type} (st : CanState Val) (memory_id : Nat)
    (d : SnapshotData Val) (bs : Bytes)
    (hreg : lookupEntry st.registry memory_id = some d)
    (hfwd : d.forward (st.vars d.slot) = .ok bs)
    (hbwd : d.backward bs = .ok (st.vars d.slot)) :
    (create_then_load st memory_id).isOk = true ∧
    (stateOfE (create_then_load st memory_id) st).vars d.slot = st.vars d.slot := by
  have h1 : controller_create_state_snapshot true st memory_id
      = .ok ({ st with registry := updateEntry st.registry memory_id { d with snapshot := bs } },
             bs.length) := by
    simp [controller_create_state_snapshot, caller_is_controller_gaurd, hreg, hfwd,
      Bind.bind, Except.bind]
  have h2 : lookupEntry (updateEntry st.registry memory_id { d with snapshot := bs }) memory_id
      = some { d with snapshot := bs } :=
    lookupEntry_updateEntry_self st.registry memory_id _ d hreg
  have h3 : controller_load_state_snapshot true
      { st with registry := (updateEntry st.registry memory_id { d with snapshot := bs }) }
      memory_id
      = .ok (setVar { st with registry := (updateEntry st.registry memory_id
          { d with snapshot := bs }) } d.slot (st.vars d.slot), ()) := by
    simp [controller_load_state_snapshot, caller_is_controller_gaurd, h2, hbwd,
      Bind.bind, Except.bind]
  have h4 : create_then_load st memory_id
      = .ok (setVar { st with registry := (updateEntry st.registry memory_id
          { d with snapshot := bs }) } d.slot (st.vars d.slot)) := by
    unfold create_then_load
    rw [h1]
    simp only [Bind.bind, Except.bind]
    rw [h3]
  rw [h4]
  constructor
  · rfl
  · simp [stateOfE, setVar]

theorem snapshot_roundtrip_witness :
    lookupEntry stA.registry 0 = some entryA ∧
    entryA.forward (stA.vars entryA.slot) = .ok [1, 1, 1] ∧
    entryA.backward [1, 1, 1] = .ok (stA.vars entryA.slot) ∧
    ((create_then_load stA 0).isOk = true ∧
     (stateOfE (create_then_load stA 0) stA).vars entryA.slot = stA.vars entryA.slot) :=
  ⟨rfl, rfl, rfl, snapshot_roundtrip stA 0 entryA [1, 1, 1] rfl rfl rfl⟩

/-- C9: each snapshot-registry endpoint invoked with id `memory_id` leaves
the registry entry of every other id `j` unchanged, and
`controller_load_state_snapshot` leaves the whole registry — in particular
the staged buffer of `memory_id` itself — unchanged (it only writes the
in-memory value). -/
theorem snapshot_endpoints_frame {Val : Type} (st : CanState Val) (memory_id j : Nat)
    (offset length : Nat) (bytes : Bytes) (h : j ≠ memory_id) :
    lookupEntry (stateOf (controller_create_state_snapshot true st memory_id) st).registry j
      = lookupEntry st.registry j ∧
    lookupEntry
        (stateOf (controller_download_state_snapshot true st memory_id offset length) st).registry
        j
      = lookupEntry st.registry j ∧
    lookupEntry (stateOf (controller_clear_state_snapshot true st memory_id) st).registry j
      = lookupEntry st.registry j ∧
    lookupEntry (stateOf (controller_append_state_snapshot true st memory_id bytes) st).registry j
      = lookupEntry st.registry j ∧
    (stateOf (controller_load_state_snapshot true st memory_id) st).registry = st.registry := by
  cases hreg : lookupEntry st.registry memory_id with
  | none =>
    refine ⟨?_, ?_, ?_, ?_, ?_⟩ <;>
      simp [stateOf, controller_create_state_snapshot, controller_download_state_snapshot,
        controller_clear_state_snapshot, controller_append_state_snapshot,
        controller_load_state_snapshot, caller_is_controller_gaurd, hreg,
        Bind.bind, Except.bind]
  | some d =>
    refine ⟨?_, ?_, ?_, ?_, ?_⟩
    · cases hf : d.forward (st.vars d.slot) with
      | error e =>
        simp [stateOf, controller_create_state_snapshot, caller_is_controller_gaurd, hreg, hf,
          Bind.bind, Except.bind]
      | ok snap =>
        simp only [stateOf, controller_create_state_snapshot, caller_is_controller_gaurd,
          hreg, hf, Bind.bind, Except.bind, if_neg]
        simp only [Bool.true_eq_false, if_false]
        exact lookupEntry_updateEntry_ne st.registry memory_id j _ h
    · by_cases hlen : offset + length ≤ d.snapshot.length <;>
        simp [stateOf, controller_download_state_snapshot, caller_is_controller_gaurd, hreg,
          hlen, Bind.bind, Except.bind]
    · simp only [stateOf, controller_clear_state_snapshot, caller_is_controller_gaurd,
        hreg, Bind.bind, Except.bind]
      simp only [Bool.true_eq_false, if_false]
      exact lookupEntry_updateEntry_ne st.registry memory_id j _ h
    · simp only [stateOf, controller_append_state_snapshot, caller_is_controller_gaurd,
        hreg, Bind.bind, Except.bind]
      simp only [Bool.true_eq_false, if_false]
      exact lookupEntry_updateEntry_ne st.registry memory_id j _ h
    · cases hb : d.backward d.snapshot with
      | error e =>
        simp [stateOf, controller_load_state_snapshot, caller_is_controller_gaurd, hreg, hb,
          Bind.bind, Except.bind]
      | ok v =>
        simp [stateOf, controller_load_state_snapshot, caller_is_controller_gaurd, hreg, hb,
          setVar, Bind.bind, Except.bind]

theorem snapshot_endpoints_frame_witness :
    (1 : Nat) ≠ 0 ∧
    (lookupEntry (stateOf (controller_create_state_snapshot true stA 0) stA).registry 1
       = lookupEntry stA.registry 1 ∧
     lookupEntry (stateOf (controller_download_state_snapshot true stA 0 0 1) stA).registry 1
       = lookupEntry stA.registry 1 ∧
     lookupEntry (stateOf (controller_clear_state_snapshot true stA 0) stA).registry 1
       = lookupEntry stA.registry 1 ∧
     lookupEntry (stateOf (controller_append_state_snapshot true stA 0 [2]) stA).registry 1
       = lookupEntry stA.registry 1 ∧
     (stateOf (controller_load_state_snapshot true stA 0) stA).registry = stA.registry) :=
  ⟨by decide, snapshot_endpoints_frame stA 0 1 0 1 [2] (by decide)⟩

/-- Downloading consecutive chunks starting at `off` concatenates to the
corresponding contiguous slice of the staged snapshot. -/
theorem download_chunks_take {Val : Type} (st : CanState Val) (memory_id : Nat)
    (d : SnapshotData Val) (hreg : lookupEntry st.registry memory_id = some d) :
    ∀ (cs : List Nat) (off : Nat), off + cs.sum ≤ d.snapshot.length →
      download_chunks st memory_id off cs = .ok ((d.snapshot.drop off).take cs.sum) := by
  intro cs
  induction cs with
  | nil =>
    intro off h
    simp [download_chunks]
  | cons c cs ih =>
    intro off h
    simp only [List.sum_cons] at h
    have hb : controller_download_state_snapshot true st memory_id off c
        = .ok (st, (d.snapshot.drop off).take c) := by
      simp [controller_download_state_snapshot, caller_is_controller_gaurd, hreg,
        Bind.bind, Except.bind, if_pos (by omega : off + c ≤ d.snapshot.length)]
    simp only [download_chunks, Bind.bind, Except.bind]
    rw [hb]
    simp only []
    rw [ih (off + c) (by omega)]
    simp only [Except.ok.injEq, List.sum_cons]
    rw [← List.drop_drop c off d.snapshot, ← List.take_add]

/-- C7: for a registered id with staged snapshot `S`, the chunked downloads
covering `[0, L)` concatenate to exactly `S`, and a download call leaves the
observable state unchanged. -/
theorem chunked_download_projection {Val : Type} (st : CanState Val) (memory_id : Nat)
    (d : SnapshotData Val) (cs : List Nat) (offset length : Nat)
    (hreg : lookupEntry st.registry memory_id = some d)
    (hsum : cs.sum = d.snapshot.length) :
    download_chunks st memory_id 0 cs = .ok d.snapshot ∧
    stateOf (controller_download_state_snapshot true st memory_id offset length) st = st := by
  constructor
  · have hdl := download_chunks_take st memory_id d hreg cs 0 (by omega)
    rw [hdl, hsum]
    simp
  · by_cases hlen : offset + length ≤ d.snapshot.length <;>
      simp [stateOf, controller_download_state_snapshot, caller_is_controller_gaurd, hreg,
        hlen, Bind.bind, Except.bind]

theorem chunked_download_projection_witness :
    lookupEntry stA.registry 0 = some entryA ∧
    ([1, 1] : List Nat).sum = entryA.snapshot.length ∧
    (download_chunks stA 0 0 [1, 1] = .ok entryA.snapshot ∧
     stateOf (controller_download_state_snapshot true stA 0 0 5) stA = stA) :=
  ⟨rfl, rfl, chunked_download_projection stA 0 entryA [1, 1] 0 5 rfl rfl⟩

/-- C4 counterexample: writing a framed 4-byte payload at base offset 1024
into a fresh region needs 1036 bytes; the engine calls `grow` with
`(1036 − 0) / PAGE + 1 = 1` page, not the `ceil((1036 − 0)/PAGE) + 1 = 2`
pages stated by the claim. -/
theorem grow_amount_not_ceil_counterexample :
    (write_data_with_length_onto_the_stable_memory regionZ 1024 [0, 0, 0, 0]).2 = some 1 ∧
    (1024 + 8 + 4 - regionZ.sizePages * PAGE + (PAGE - 1)) / PAGE + 1 = 2 ∧
    some 1 ≠ (some 2 : Option Nat) := by
  refine ⟨rfl, by norm_num [regionZ, PAGE], by decide⟩

/-- C4 (amended): whenever the engine writes a framed payload and the current
byte capacity is below `needed = off + 8 + len`, it calls `grow` with exactly
`(needed − current) / PAGE + 1` pages (integer floor division, the source's
`/PAGE + 1`), and the write fails with the out-of-memory error exactly when
that `grow` call returns −1. -/
theorem framed_write_grow_amount (r : Region) (off : Nat) (data : Bytes)
    (h : r.sizePages * PAGE < off + 8 + data.length) :
    ((write_data_with_length_onto_the_stable_memory r off data).1 = .error () ↔
      (r.grow (grow_amount (r.sizePages * PAGE) (off + 8 + data.length))).1 = -1) ∧
    (write_data_with_length_onto_the_stable_memory r off data).2
      = some (grow_amount (r.sizePages * PAGE) (off + 8 + data.length)) := by
  have hloc : locate_minimum_memory r (off + 8 + data.length)
      = if (r.grow (grow_amount (r.sizePages * PAGE) (off + 8 + data.length))).1 = -1 then
          (.error (), some (grow_amount (r.sizePages * PAGE) (off + 8 + data.length)))
        else
          ((.ok (r.grow (grow_amount (r.sizePages * PAGE) (off + 8 + data.length))).2),
           some (grow_amount (r.sizePages * PAGE) (off + 8 + data.length))) := by
    simp only [locate_minimum_memory, if_pos h]
  by_cases hg : (r.grow (grow_amount (r.sizePages * PAGE) (off + 8 + data.length))).1 = -1
  · rw [if_pos hg] at hloc
    constructor
    · simp [write_data_with_length_onto_the_stable_memory, hloc, hg]
    · simp [write_data_with_length_onto_the_stable_memory, hloc]
  · rw [if_neg hg] at hloc
    constructor
    · simp [write_data_with_length_onto_the_stable_memory, hloc, hg]
    · simp [write_data_with_length_onto_the_stable_memory, hloc]

theorem framed_write_grow_amount_witness :
    regionZ.sizePages * PAGE < 1024 + 8 + 4 ∧
    (((write_data_with_length_onto_the_stable_memory regionZ 1024 [0, 0, 0, 0]).1 = .error () ↔
       (regionZ.grow (grow_amount (regionZ.sizePages * PAGE) (1024 + 8 + 4))).1 = -1) ∧
     (write_data_with_length_onto_the_stable_memory regionZ 1024 [0, 0, 0, 0]).2
       = some (grow_amount (regionZ.sizePages * PAGE) (1024 + 8 + 4))) :=
  ⟨by decide, framed_write_grow_amount regionZ 1024 [0, 0, 0, 0] (by decide)⟩

/-- C2: for a registered id whose codec round-trips on the currently stored
value, a successful `pre_upgrade()` followed by the host heap reset and
`post_upgrade(id, _, None)` succeeds, leaves the in-memory value equal to
its pre-upgrade value, and leaves the id registered again. -/
theorem upgrade_roundtrip_ok {Val : Type} (st : CanState Val) (defaults : Nat → Val)
    (memory_id : Nat) (d : SnapshotData Val) (bs : Bytes)
    (hnd : (st.registry.map Prod.fst).Nodup)
    (hmem : (memory_id, d) ∈ st.registry)
    (hfwd : d.forward (st.vars d.slot) = .ok bs)
    (hbwd : d.backward bs = .ok (st.vars d.slot))
    (hlen : bs.length < 2 ^ 64)
    (hpre : (pre_upgrade st).isOk = true) :
    (upgrade_roundtrip st defaults d.slot d.forward d.backward memory_id).isOk = true ∧
    (stateOfE (upgrade_roundtrip st defaults d.slot d.forward d.backward memory_id) st).vars
        d.slot
      = st.vars d.slot ∧
    containsId
        (stateOfE (upgrade_roundtrip st defaults d.slot d.forward d.backward memory_id) st).registry
        memory_id = true := by
  cases hgo : pre_upgrade_go st.vars st.registry st.regions with
  | error e =>
    exfalso
    unfold pre_upgrade at hpre
    rw [hgo] at hpre
    simp [Bind.bind, Except.bind, Except.isOk, Except.toBool] at hpre
  | ok p =>
    obtain ⟨reg2, regions2⟩ := p
    have hst1 : pre_upgrade st = .ok { st with registry := reg2, regions := regions2 } := by
      unfold pre_upgrade
      rw [hgo]
      rfl
    obtain ⟨bsx, r2, hfx, hwx, hregionsx⟩ :=
      pre_upgrade_go_region st.vars st.registry st.regions reg2 regions2 hnd hgo memory_id d hmem
    rw [hfwd] at hfx
    have hbse : bs = bsx := Except.ok.inj hfx
    subst hbse
    have hread : read_stable_memory_bytes_with_length r2 STABLE_MEMORY_HEADER_SIZE_BYTES = bs :=
      write_then_read _ _ _ _ hlen hwx
    have hpost : upgrade_roundtrip st defaults d.slot d.forward d.backward memory_id
        = .ok { registry := ([(memory_id,
                  { snapshot := [], slot := d.slot, forward := d.forward,
                    backward := d.backward })]),
                vars := (fun k => if k = d.slot then st.vars d.slot else defaults k),
                regions := regions2 } := by
      unfold upgrade_roundtrip
      rw [hst1]
      simp only [Bind.bind, Except.bind]
      unfold post_upgrade
      simp only [heap_reset, hregionsx, hread, hbwd, Bind.bind, Except.bind]
      simp only [init, containsId, lookupEntry, insertEntry, setVar, Option.isSome]
      rfl
    rw [hpost]
    refine ⟨rfl, ?_, ?_⟩
    · simp [stateOfE]
    · simp [stateOfE, containsId, lookupEntry]

theorem upgrade_roundtrip_ok_witness :
    (stA.registry.map Prod.fst).Nodup ∧
    (0, entryA) ∈ stA.registry ∧
    entryA.forward (stA.vars entryA.slot) = .ok [1, 1, 1] ∧
    entryA.backward [1, 1, 1] = .ok (stA.vars entryA.slot) ∧
    ([1, 1, 1] : Bytes).length < 2 ^ 64 ∧
    (pre_upgrade stA).isOk = true ∧
    ((upgrade_roundtrip stA (fun _ => 0) entryA.slot entryA.forward entryA.backward 0).isOk
        = true ∧
     (stateOfE (upgrade_roundtrip stA (fun _ => 0) entryA.slot entryA.forward entryA.backward 0)
         stA).vars entryA.slot = stA.vars entryA.slot ∧
     containsId
         (stateOfE (upgrade_roundtrip stA (fun _ => 0) entryA.slot entryA.forward entryA.backward 0)
           stA).registry 0 = true) :=
  ⟨by decide, List.mem_cons_self _ _, rfl, rfl, by decide, rfl,
   upgrade_roundtrip_ok stA (fun _ => 0) 0 entryA [1, 1, 1] (by decide)
     (List.mem_cons_self _ _) rfl rfl (by decide) rfl⟩

end CanTools
